import Mathlib

/-!
Shallow embedding of the univ-live student CBT front-end (scoring, attempt
lifecycle, resume discovery, access-code redemption, rankings aggregation),
translated from the TypeScript source.  Numbers are modelled as rationals
(JS numbers on the in-range values these code paths handle), `null`/`undefined`
as `Option`, JS objects keyed by strings as association lists with unique keys,
and the remote document store as explicit state threaded through each handler.
-/

namespace UnivLive

/-- Association-list lookup keyed by strings (models `obj[key]` on a JS object
whose keys are unique). -/
def alookup {V : Type} (k : String) : List (String × V) → Option V
  | [] => none
  | (k2, v) :: rest => if k2 = k then some v else alookup k rest

/-- Association-list in-place update of an existing key (models assigning to an
existing property of a JS object: insertion order of keys is preserved). -/
def aupdate {V : Type} (k : String) (v : V) : List (String × V) → List (String × V)
  | [] => []
  | (k2, v2) :: rest => if k2 = k then (k2, v) :: rest else (k2, v2) :: aupdate k v rest

/-- JS `a || b` on strings: the fallback is used when the first operand is the
empty string (falsy). -/
def jsOrStr (a b : String) : String := if a = "" then b else a

/-- JS `a || b` on numbers: the fallback is used when the first operand is `0`
(falsy).  NaN, the other falsy number, has no counterpart in `ℚ`. -/
def jsOrQ (a b : ℚ) : ℚ := if a = 0 then b else a

/-- Whether the second character list is an initial run of the first. -/
def startMatch : List Char → List Char → Bool
  | _, [] => true
  | [], _ :: _ => false
  | c :: cs, d :: ds => c = d && startMatch cs ds

/-- Whether the pattern occurs as a contiguous run anywhere in the haystack. -/
def subOccurs : List Char → List Char → Bool
  | [], pat => startMatch [] pat
  | c :: cs, pat => startMatch (c :: cs) pat || subOccurs cs pat

/-- JS `haystack.includes(needle)`: the needle occurs as a substring. -/
def jsIncludes (haystack needle : String) : Bool := subOccurs haystack.data needle.data

/-- JS `String.prototype.trim`: drops leading and trailing whitespace.  The
ASCII whitespace characters recognized by `Char.isWhitespace` cover every
whitespace character occurring in this code's data. -/
def jsTrim (s : String) : String :=
  String.mk ((s.data.dropWhile Char.isWhitespace).reverse.dropWhile Char.isWhitespace).reverse

/-- JS `Math.round`: floor of the argument plus one half (rounds half toward
positive infinity, matching `Math.round` on all non-NaN inputs). -/
def jsRound (q : ℚ) : ℤ := ⌊q + 1 / 2⌋

/-- Value stored in a debounced update payload (`Record<string, any>` whose
values here are booleans, strings, numbers or null). -/
inductive JsValue
  | b (v : Bool)
  | s (v : String)
  | n (v : ℚ)
  | null
deriving Repr, DecidableEq

/-- Pending debounced update payload: Firestore field paths mapped to values
(`pendingUpdateRef.current`). -/
abbrev PendingPayload := List (String × JsValue)

/-! ## Scoring data model (`StudentCBTAttempt`) -/

/-- Question type (`"mcq" | "integer"`). -/
inductive QType
  | mcq
  | integer
deriving Repr, DecidableEq

/-- Marks awarded for a correct answer and deducted for an incorrect one
(`marks: { correct: number; incorrect: number }`).  `mapQuestion` always fills
these with finite numbers, so the source's `safeNumber(·, 0)` re-guard inside
`computeScore` is the identity here. -/
structure Marks where
  correct : ℚ
  incorrect : ℚ
deriving Repr, DecidableEq

/-- A loaded question (`AttemptQuestion`); fields not consulted by the claims
under proof (stem, options, explanation, passage) are omitted.
`correctAnswer` is the canonical answer encoded as a string: the correct option
index for `mcq`, the literal value for `integer`. -/
structure AttemptQuestion where
  id : String
  sectionId : String
  qtype : QType
  correctAnswer : Option String
  marks : Marks
deriving Repr, DecidableEq

/-- Per-question response state (`AttemptResponse`). -/
structure AttemptResponse where
  answer : Option String
  markedForReview : Bool
  visited : Bool
  answered : Bool
deriving Repr, DecidableEq

/-- The response map keyed by question id (`Record<string, AttemptResponse>`). -/
abbrev Responses := List (String × AttemptResponse)

/-- Zero-initialized responses for every loaded question
(`buildInitResponses`). -/
def buildInitResponses (qs : List AttemptQuestion) : Responses :=
  qs.map fun q => (q.id, { answer := none, markedForReview := false, visited := false, answered := false })

/-- Accumulator of the `for (const q of questions)` loop in `computeScore`. -/
structure ScoreAcc where
  score : ℚ
  maxScore : ℚ
  correctCount : ℕ
  incorrectCount : ℕ
  unansweredCount : ℕ
deriving Repr, DecidableEq

/-- Result record returned by `computeScore`. -/
structure ScoreResult where
  score : ℚ
  maxScore : ℚ
  correctCount : ℕ
  incorrectCount : ℕ
  unansweredCount : ℕ
  accuracy : ℚ
deriving Repr, DecidableEq

/-- Body of the `computeScore` loop for one question, transcribed from the
source: `maxScore += q.marks.correct`; a missing, null, or blank-after-trim
answer is unanswered; an `integer` answer is compared trimmed against the
trimmed canonical literal; an `mcq` answer is compared untrimmed against the
canonical option-index string (`String(q.correctAnswer ?? "")`). -/
def scoreStep (responses : Responses) (acc : ScoreAcc) (q : AttemptQuestion) : ScoreAcc :=
  let acc1 : ScoreAcc := { acc with maxScore := acc.maxScore + q.marks.correct }
  match (alookup q.id responses).bind (fun r => r.answer) with
  | none => { acc1 with unansweredCount := acc1.unansweredCount + 1 }
  | some ans =>
    if jsTrim ans = "" then
      { acc1 with unansweredCount := acc1.unansweredCount + 1 }
    else if q.qtype = QType.integer then
      if jsTrim ans = jsTrim (q.correctAnswer.getD "") then
        { acc1 with score := acc1.score + q.marks.correct, correctCount := acc1.correctCount + 1 }
      else
        { acc1 with score := acc1.score - q.marks.incorrect, incorrectCount := acc1.incorrectCount + 1 }
    else
      if ans = q.correctAnswer.getD "" then
        { acc1 with score := acc1.score + q.marks.correct, correctCount := acc1.correctCount + 1 }
      else
        { acc1 with score := acc1.score - q.marks.incorrect, incorrectCount := acc1.incorrectCount + 1 }

/-- `computeScore` from `StudentCBTAttempt`: folds the loop body over the loaded
questions, then `accuracy = attempted > 0 ? correctCount / attempted : 0`. -/
def computeScore (questions : List AttemptQuestion) (responses : Responses) : ScoreResult :=
  let acc := questions.foldl (scoreStep responses) ⟨0, 0, 0, 0, 0⟩
  let attempted : ℕ := acc.correctCount + acc.incorrectCount
  { score := acc.score, maxScore := acc.maxScore, correctCount := acc.correctCount,
    incorrectCount := acc.incorrectCount, unansweredCount := acc.unansweredCount,
    accuracy := if 0 < attempted then (acc.correctCount : ℚ) / (attempted : ℚ) else 0 }

/-! ### Spec-side scoring vocabulary (written from the claim's words, to be
compared with `computeScore`) -/

/-- Outcome classification of one question under a response map. -/
inductive Outcome
  | correct
  | incorrect
  | unanswered
deriving Repr, DecidableEq

/-- The effective answer per the claim: `none` when the stored answer is null,
undefined (no response entry), or blank after trimming. -/
def effectiveAnswer (responses : Responses) (q : AttemptQuestion) : Option String :=
  match (alookup q.id responses).bind (fun r => r.answer) with
  | none => none
  | some a => if jsTrim a = "" then none else some a

/-- Correctness criterion per the claim: an `mcq` answer is correct exactly when
it string-equals the canonical correct-option-index string (untrimmed); an
`integer` answer is correct exactly when its trimmed string equals the trimmed
canonical literal. -/
def claimCorrect (q : AttemptQuestion) (a : String) : Bool :=
  match q.qtype with
  | QType.mcq => a = q.correctAnswer.getD ""
  | QType.integer => jsTrim a = jsTrim (q.correctAnswer.getD "")

/-- Outcome of one question per the claim's reading. -/
def outcomeOf (responses : Responses) (q : AttemptQuestion) : Outcome :=
  match effectiveAnswer responses q with
  | none => Outcome.unanswered
  | some a => if claimCorrect q a then Outcome.correct else Outcome.incorrect

/-- Sum of the positive marks of the correctly answered questions. -/
def specSumPositive (responses : Responses) (qs : List AttemptQuestion) : ℚ :=
  (qs.map fun q => if outcomeOf responses q = Outcome.correct then q.marks.correct else 0).sum

/-- Sum of the penalty marks of the incorrectly answered questions. -/
def specSumPenalty (responses : Responses) (qs : List AttemptQuestion) : ℚ :=
  (qs.map fun q => if outcomeOf responses q = Outcome.incorrect then q.marks.incorrect else 0).sum

/-- Sum of every question's positive marks. -/
def specMaxScore (qs : List AttemptQuestion) : ℚ :=
  (qs.map fun q => q.marks.correct).sum

/-- Number of questions classified with a given outcome. -/
def specCount (o : Outcome) (responses : Responses) (qs : List AttemptQuestion) : ℕ :=
  qs.countP fun q => decide (outcomeOf responses q = o)

/-! ## Timing (`computeRemainingSeconds`) -/

/-- `computeRemainingSeconds(startedAtMs, totalSec)` with the wall clock
(`Date.now()`) passed explicitly: `0` when `totalSec` is falsy, `totalSec` when
`startedAtMs` is falsy (null or `0`), otherwise
`Math.max(0, totalSec - Math.floor((now - startedAtMs) / 1000))`. -/
def computeRemainingSeconds (startedAtMs : Option ℤ) (totalSec : ℚ) (nowMs : ℤ) : ℚ :=
  if totalSec = 0 then 0
  else
    match startedAtMs with
    | none => totalSec
    | some t =>
      if t = 0 then totalSec
      else
        let elapsed : ℤ := ⌊((nowMs : ℚ) - (t : ℚ)) / 1000⌋
        max 0 (totalSec - (elapsed : ℚ))

/-! ## Test definition and the two-source load (`StudentCBTAttempt` load effect) -/

/-- Section of a test (`{ id, name }`). -/
structure SectionR where
  id : String
  name : String
deriving Repr, DecidableEq

/-- Test definition (`TestMeta`). -/
structure TestMeta where
  id : String
  title : String
  subject : Option String
  durationMinutes : ℚ
  sections : List SectionR
deriving Repr, DecidableEq

/-- Raw test document data as read from either candidate source, with the
fields the load effect consumes (`d.title`, `d.subject`, `d.durationMinutes`,
`d.sections`).  A `none` models a missing or non-coercible field
(`safeNumber` falls back for `durationMinutes`). -/
structure TestDocRaw where
  id : String
  title : Option String
  subject : Option String
  durationMinutes : Option ℚ
  sections : List SectionR
deriving Repr, DecidableEq

/-- One candidate source: the test document together with its full question
subcollection (each raw question already passed through `mapQuestion`, whose
field mapping no claim concerns). -/
structure TestSource where
  data : TestDocRaw
  questions : List AttemptQuestion
deriving Repr, DecidableEq

/-- Construction of `TestMeta` from an existing test document, transcribed from
the load effect: `durationMinutes = safeNumber(d.durationMinutes, 60)`,
`title = d.title || "Untitled Test"`, and an empty `sections` array is replaced
by the computed single section named `d.subject || "General"`. -/
def mkTestMeta (d : TestDocRaw) : TestMeta :=
  { id := d.id,
    title := jsOrStr (d.title.getD "") "Untitled Test",
    subject := d.subject,
    durationMinutes := d.durationMinutes.getD 60,
    sections :=
      if d.sections = [] then [{ id := "main", name := jsOrStr (d.subject.getD "") "General" }]
      else d.sections }

/-- The two-source load loop: the tenant-owned educator source is tried first,
then the shared `test_series` source; the first source whose test document
exists wins and its entire question subcollection is taken; afterwards a
missing document on both sources throws `"Test not found"` and an empty
question list throws `"No questions found in this test"`. -/
def loadTestAndQuestions (tenantOwned shared : Option TestSource) :
    Except String (TestMeta × List AttemptQuestion) :=
  let picked : Option TestSource :=
    match tenantOwned with
    | some s => some s
    | none => shared
  match picked with
  | none => Except.error "Test not found"
  | some s =>
    if s.questions = [] then Except.error "No questions found in this test"
    else Except.ok (mkTestMeta s.data, s.questions)

/-! ## Resume discovery (`loadAttemptById` and the cache-then-query fallback) -/

/-- Attempt status (`"in_progress" | "submitted"`). -/
inductive AttemptStatus
  | in_progress
  | submitted
deriving Repr, DecidableEq

/-- Persisted attempt document fields consulted during resume discovery
(`AttemptDoc`). -/
structure AttemptDocR where
  studentId : String
  educatorId : String
  testId : String
  status : AttemptStatus
  startedAtMs : Option ℤ
  durationSec : Option ℚ
  currentIndex : Option ℤ
  responses : Responses
deriving Repr, DecidableEq

/-- `loadAttemptById`: the fetched attempt document is accepted only when it
exists, its `studentId` equals the signed-in student's id, its `testId` equals
the test being taken, its `status` is `"in_progress"`, and its `educatorId`
equals the resolved educator id; otherwise the loader returns null. -/
def loadAttemptById (store : String → Option AttemptDocR)
    (uid testId educatorId : String) (id : String) : Option (String × AttemptDocR) :=
  match store id with
  | none => none
  | some a =>
    if a.studentId ≠ uid then none
    else if a.testId ≠ testId then none
    else if a.status ≠ AttemptStatus.in_progress then none
    else if a.educatorId ≠ educatorId then none
    else some (id, a)

/-- Resume discovery: a locally cached attempt id is consulted first and its
document validated by `loadAttemptById`; on rejection the stale cache entry is
removed and discovery falls back to the result of the remote query (ordered by
creation time descending, limited to one), whose found id is cached.  Returns
the active attempt (if any) and the cache entry afterwards. -/
def discoverResume (store : String → Option AttemptDocR) (uid testId educatorId : String)
    (cache : Option String) (queryResult : Option (String × AttemptDocR)) :
    Option (String × AttemptDocR) × Option String :=
  let fromCache : Option (String × AttemptDocR) :=
    match cache with
    | none => none
    | some cid => loadAttemptById store uid testId educatorId cid
  let cache1 : Option String :=
    match cache with
    | none => none
    | some cid => if (loadAttemptById store uid testId educatorId cid).isSome then some cid else none
  match fromCache with
  | some f => (some f, cache1)
  | none =>
    match queryResult with
    | some (i, d) => (some (i, d), some i)
    | none => (none, cache1)

/-! ## Attempt client state, submit and start handlers -/

/-- A remote write applied to the active attempt document: either a coalesced
debounced patch payload (`updateDoc(attemptRef, {...payload, updatedAt})`) or
the finalizing submit write carrying the score fields and elapsed time. -/
inductive RemoteWrite
  | patchWrite (payload : PendingPayload)
  | finalizeWrite (result : ScoreResult) (timeTakenSec : ℚ)
deriving Repr, DecidableEq

/-- The slice of `StudentCBTAttempt` component state (plus its remote and
local-storage context) that the submit/start handlers read and write.
`localCache` is the local resume cache entry for the (tenant, test) key;
`remoteStatus`/`remoteLog` model the attempt document in the store;
`nowMs` is the wall clock. -/
structure AttemptClientState where
  firebaseUserUid : Option String
  testId : Option String
  educatorId : Option String
  testMeta : Option TestMeta
  questions : List AttemptQuestion
  responses : Responses
  currentIndex : ℤ
  attemptId : Option String
  attemptStartedAtMs : Option ℤ
  durationSec : ℚ
  isStarted : Bool
  pending : PendingPayload
  localCache : Option String
  remoteStatus : AttemptStatus
  remoteLog : List RemoteWrite
  nowMs : ℤ
deriving Repr, DecidableEq

/-- Guard at the top of `handleSubmit` (and materially of `handleStart`):
`!attemptId || !firebaseUser || !testId || !educatorId || !testMeta`.
`handleStart` checks the same except `attemptId`. -/
def submitGuardOk (s : AttemptClientState) : Bool :=
  s.attemptId.isSome && s.firebaseUserUid.isSome && s.testId.isSome &&
    s.educatorId.isSome && s.testMeta.isSome

/-- `flushPendingSaves`: with no attempt ref it returns immediately; otherwise
the debounce timer is cleared, the pending payload is taken and reset, and a
nonempty payload is written to the attempt document (the write may fail, which
in the source propagates as an exception).  Returns the state and whether the
flush completed without error. -/
def flushPendingSaves (s : AttemptClientState) (writeOk : Bool) : AttemptClientState × Bool :=
  if s.attemptId.isNone then (s, true)
  else
    let pending := s.pending
    let s1 := { s with pending := [] }
    if pending = [] then (s1, true)
    else if writeOk then ({ s1 with remoteLog := s1.remoteLog ++ [RemoteWrite.patchWrite pending] }, true)
    else (s1, false)

/-- Total seconds used by `handleStart`/`handleSubmit`:
`durationSec || testMeta.durationMinutes * 60`. -/
def totalSecOf (s : AttemptClientState) : ℚ :=
  jsOrQ s.durationSec ((s.testMeta.map (fun m => m.durationMinutes)).getD 0 * 60)

/-- Elapsed time recorded by the finalizing write:
`startedAtMs = attemptStartedAtMs || Date.now()`,
`timeTakenSec = Math.max(0, totalSec - computeRemainingSeconds(startedAtMs, totalSec))`. -/
def submitTimeTaken (s : AttemptClientState) : ℚ :=
  let totalSec := totalSecOf s
  let startedAtMs : ℤ :=
    match s.attemptStartedAtMs with
    | none => s.nowMs
    | some t => if t = 0 then s.nowMs else t
  max 0 (totalSec - computeRemainingSeconds (some startedAtMs) totalSec s.nowMs)

/-- Outcome of a `handleSubmit` invocation. -/
inductive SubmitOutcome
  | blocked
  | flushFailed
  | finalizeFailed
  | navigated (attemptId : String) (auto : Bool)
deriving Repr, DecidableEq

/-- `handleSubmit`: after the guard it flushes any pending debounced payload,
computes the score and elapsed time, and issues the finalizing write that marks
the attempt `submitted` with all score fields; only when that write succeeds is
the local resume cache entry removed and the results navigation issued (with an
`auto=1` flag for automatic submits).  A thrown write error is caught, leaving
the previously written state intact. -/
def handleSubmit (s : AttemptClientState) (isAutoSubmit flushOk finalizeOk : Bool) :
    AttemptClientState × SubmitOutcome :=
  if !submitGuardOk s then (s, SubmitOutcome.blocked)
  else
    let (s1, ok) := flushPendingSaves s flushOk
    if !ok then (s1, SubmitOutcome.flushFailed)
    else
      let result := computeScore s.questions s.responses
      let timeTakenSec := submitTimeTaken s
      if finalizeOk then
        ({ s1 with remoteStatus := AttemptStatus.submitted,
                   remoteLog := s1.remoteLog ++ [RemoteWrite.finalizeWrite result timeTakenSec],
                   localCache := none },
         SubmitOutcome.navigated (s.attemptId.getD "") isAutoSubmit)
      else (s1, SubmitOutcome.finalizeFailed)

/-- JS object spread `{...a, ...b}` on maps with unique keys: keys of `a` keep
their insertion order with values overridden by `b` where present, followed by
the keys only `b` has. -/
def spreadMerge {V : Type} (a b : List (String × V)) : List (String × V) :=
  (a.map fun kv => (kv.1, (alookup kv.1 b).getD kv.2)) ++
    b.filter fun kv => (alookup kv.1 a).isNone

/-- Action taken by a `handleStart` invocation. -/
inductive StartAction
  | blocked
  | submitAuto
  | started
deriving Repr, DecidableEq

/-- `handleStart`: after the guard (fullscreen request is best-effort and does
not affect state), `totalSec = durationSec || durationMinutes * 60`; an
existing attempt with a truthy start time whose computed remaining time is ≤ 0
routes directly to `handleSubmit(true)` and returns; otherwise a missing
attempt is created `in_progress` with a fresh start timestamp and
zero-initialized responses (id `newId` cached locally), a missing start time is
backfilled, and the component enters the started state. -/
def handleStart (s : AttemptClientState) (newId : String) (flushOk finalizeOk : Bool) :
    AttemptClientState × StartAction :=
  if !(s.firebaseUserUid.isSome && s.testId.isSome && s.educatorId.isSome && s.testMeta.isSome) then
    (s, StartAction.blocked)
  else
    let totalSec := totalSecOf s
    let startedTruthy : Bool :=
      match s.attemptStartedAtMs with
      | none => false
      | some t => t ≠ 0
    if s.attemptId.isSome && startedTruthy &&
        computeRemainingSeconds s.attemptStartedAtMs totalSec s.nowMs ≤ 0 then
      let (s1, _) := handleSubmit s true flushOk finalizeOk
      (s1, StartAction.submitAuto)
    else if s.attemptId.isNone then
      let startedAtMs := s.nowMs
      let initResponses := buildInitResponses s.questions
      ({ s with attemptId := some newId,
                localCache := some newId,
                responses := spreadMerge initResponses s.responses,
                attemptStartedAtMs := some startedAtMs,
                durationSec := totalSec,
                isStarted := true },
       StartAction.started)
    else
      let startedAtMs : ℤ :=
        match s.attemptStartedAtMs with
        | none => s.nowMs
        | some t => if t = 0 then s.nowMs else t
      ({ s with attemptStartedAtMs := some startedAtMs,
                durationSec := totalSec,
                isStarted := true },
       StartAction.started)

/-! ## Mark-visited effect (idempotent `visited` flag) -/

/-- The mark-visited effect: it returns untouched unless the component is
started with a current question and an active attempt; the functional state
update leaves the response map unchanged (and enqueues nothing) when the
question has no entry or is already visited, and otherwise sets `visited` and
enqueues one debounced patch carrying the `visited` field path together with
the piggybacked `currentIndex`. -/
def markVisitedEffect (isStarted : Bool) (attemptId : Option String)
    (currentQuestion : Option AttemptQuestion) (currentIndex : ℤ)
    (responses : Responses) : Responses × Option PendingPayload :=
  if !isStarted || currentQuestion.isNone || attemptId.isNone then (responses, none)
  else
    match currentQuestion with
    | none => (responses, none)
    | some q =>
      match alookup q.id responses with
      | none => (responses, none)
      | some cur =>
        if cur.visited then (responses, none)
        else
          (aupdate q.id { cur with visited := true } responses,
           some [("responses." ++ q.id ++ ".visited", JsValue.b true),
                 ("currentIndex", JsValue.n (currentIndex : ℚ))])

/-- Iterated navigation to the same question: applies the mark-visited effect
`n` times, threading the response map and counting the enqueued patches. -/
def markVisitedIter (isStarted : Bool) (attemptId : Option String)
    (currentQuestion : Option AttemptQuestion) (currentIndex : ℤ) :
    ℕ → Responses → Responses × ℕ
  | 0, rs => (rs, 0)
  | n + 1, rs =>
    let (rs1, p) := markVisitedEffect isStarted attemptId currentQuestion currentIndex rs
    let (rs2, c) := markVisitedIter isStarted attemptId currentQuestion currentIndex n rs1
    (rs2, (if p.isSome then 1 else 0) + c)

/-! ## Access-code redemption (`StudentTestDetails.redeemCode` transaction) -/

/-- Access-code document fields consumed by the transaction.  `testSeriesId`
holds the result of `String(codeData?.testSeriesId || "")` (empty when absent);
`maxUses`/`usesUsed` are `safeNum(·, 0)` coercions; `expiresAtMs` models a
stored expiry `Timestamp` in epoch milliseconds (`none` when absent). -/
structure AccessCode where
  testSeriesId : String
  maxUses : ℚ
  usesUsed : ℚ
  expiresAtMs : Option ℤ
deriving Repr, DecidableEq

/-- Unlock record created by redemption (`testUnlocks/{uid}__{eid}__{testId}`). -/
structure UnlockRecord where
  studentId : String
  educatorId : String
  tenantSlug : Option String
  testSeriesId : String
  unlockedVia : String
  accessCode : String
deriving Repr, DecidableEq

/-- The two documents touched by the redemption transaction: the code document
at `educators/{eid}/accessCodes/{codeUpper}` and the unlock record at the
deterministic id `{uid}__{eid}__{testId}`. -/
structure TxState where
  codeDoc : Option AccessCode
  unlockDoc : Option UnlockRecord
deriving Repr, DecidableEq

/-- `isExpired(expiresAt)`: false when no expiry (or no timestamp) is stored,
otherwise true exactly when the stored instant is strictly before the wall
clock. -/
def isExpired (expiresAtMs : Option ℤ) (nowMs : ℤ) : Bool :=
  match expiresAtMs with
  | none => false
  | some t => t < nowMs

/-- Body of the `runTransaction` callback in `redeemCode`, transcribed from the
source: missing code document throws `"Invalid code"`; an absent or different
bound test id throws `"Code does not match this test"`; a usage counter at or
above a positive cap throws `"Code exhausted"`; a past expiry throws
`"Code expired"`; an already-existing unlock record returns without consuming;
otherwise the unlock record is created and `usesUsed` incremented in the same
atomic unit. -/
def redeemCodeTxn (s : TxState) (uid educatorId testId codeUpper : String)
    (tenantSlug : Option String) (nowMs : ℤ) : Except String TxState :=
  match s.codeDoc with
  | none => Except.error "Invalid code"
  | some c =>
    if c.testSeriesId = "" ∨ c.testSeriesId ≠ testId then
      Except.error "Code does not match this test"
    else if 0 < c.maxUses ∧ c.maxUses ≤ c.usesUsed then
      Except.error "Code exhausted"
    else if isExpired c.expiresAtMs nowMs then
      Except.error "Code expired"
    else
      match s.unlockDoc with
      | some _ => Except.ok s
      | none =>
        Except.ok
          { codeDoc := some { c with usesUsed := c.usesUsed + 1 },
            unlockDoc := some
              { studentId := uid, educatorId := educatorId, tenantSlug := tenantSlug,
                testSeriesId := testId, unlockedVia := "accessCode", accessCode := codeUpper } }

/-- Firestore transaction semantics around the callback: a thrown error aborts
the transaction, discarding every staged write, so the documents are unchanged;
a successful callback commits them atomically. -/
def runRedeem (s : TxState) (uid educatorId testId codeUpper : String)
    (tenantSlug : Option String) (nowMs : ℤ) : TxState × Except String Unit :=
  match redeemCodeTxn s uid educatorId testId codeUpper tenantSlug nowMs with
  | Except.ok s1 => (s1, Except.ok ())
  | Except.error e => (s, Except.error e)

/-- The `catch` block of `redeemCode`: maps each thrown message to its
user-facing toast by substring matching. -/
def redeemErrorToast (msg : String) : String :=
  if jsIncludes msg "Invalid code" then "Invalid access code."
  else if jsIncludes msg "does not match" then "This code is for a different test."
  else if jsIncludes msg "exhausted" then "This code has reached its maximum uses."
  else if jsIncludes msg "expired" then "This code is expired."
  else "Failed to redeem code."

/-! ## Rankings aggregation (`StudentRankings`) -/

/-- Attempt fields consumed by the rankings aggregation; `none` models a
missing field (`safeNumber` falls back: `0` for score and maxScore,
`Number.MAX_SAFE_INTEGER` for the time taken). -/
structure RankAttempt where
  studentId : String
  score : Option ℚ
  maxScore : Option ℚ
  timeTakenSec : Option ℚ
deriving Repr, DecidableEq

/-- `safeNumber(a.score, 0)`. -/
def rScore (a : RankAttempt) : ℚ := a.score.getD 0

/-- `safeNumber(a.maxScore, 0)`. -/
def rMax (a : RankAttempt) : ℚ := a.maxScore.getD 0

/-- `safeNumber(a.timeTakenSec, Number.MAX_SAFE_INTEGER)`. -/
def rTime (a : RankAttempt) : ℚ := a.timeTakenSec.getD 9007199254740991

/-- `pct(score, maxScore)`: `0` when `maxScore` is falsy or non-positive,
otherwise `Math.max(0, Math.min(100, Math.round((score / maxScore) * 100)))`
— an integer percentage, rounded and clamped. -/
def pct (score maxScore : ℚ) : ℤ :=
  if maxScore ≤ 0 then 0
  else max 0 (min 100 (jsRound (score / maxScore * 100)))

/-- The integer percentage of one rankings attempt. -/
def pctOf (a : RankAttempt) : ℤ := pct (rScore a) (rMax a)

/-- The replace-current-best test inside `pickBestAttemptsPerStudent`: the
incoming attempt wins on strictly higher integer percentage, then on strictly
higher raw score at equal percentage, then on strictly lower time taken at
equal percentage and score. -/
def betterThan (a cur : RankAttempt) : Bool :=
  if pctOf a > pctOf cur then true
  else if pctOf a = pctOf cur ∧ rScore a > rScore cur then true
  else if pctOf a = pctOf cur ∧ rScore a = rScore cur ∧ rTime a < rTime cur then true
  else false

/-- One iteration of the `pickBestAttemptsPerStudent` loop: skip a falsy
student id, adopt the first attempt seen for a student, and afterwards replace
the stored best only when the incoming attempt is strictly better. -/
def pickStep (best : List (String × RankAttempt)) (a : RankAttempt) :
    List (String × RankAttempt) :=
  if a.studentId = "" then best
  else
    match alookup a.studentId best with
    | none => best ++ [(a.studentId, a)]
    | some cur => if betterThan a cur then aupdate a.studentId a best else best

/-- `pickBestAttemptsPerStudent`: folds the loop over the fetched attempts and
returns the per-student best map as its entry list (insertion order). -/
def pickBestAttemptsPerStudent (attempts : List RankAttempt) : List (String × RankAttempt) :=
  attempts.foldl pickStep []

/-- Sign-valued comparator used to rank the selected best attempts, transcribed
from the `.sort` callback over rows `(percentScore, score, time)`: percentage
descending, then raw score descending, then time ascending. -/
def rankCmp (a b : ℤ × ℚ × ℚ) : ℚ :=
  if b.1 ≠ a.1 then ((b.1 : ℚ) - (a.1 : ℚ))
  else if b.2.1 ≠ a.2.1 then b.2.1 - a.2.1
  else a.2.2 - b.2.2

/-! ## Scoring lemmas -/

/-- The loop body acts on the accumulator exactly according to the outcome
classification of the question. -/
lemma scoreStep_eq (rs : Responses) (acc : ScoreAcc) (q : AttemptQuestion) :
    scoreStep rs acc q =
      match outcomeOf rs q with
      | Outcome.unanswered =>
          { acc with maxScore := acc.maxScore + q.marks.correct,
                     unansweredCount := acc.unansweredCount + 1 }
      | Outcome.correct =>
          { acc with maxScore := acc.maxScore + q.marks.correct,
                     score := acc.score + q.marks.correct,
                     correctCount := acc.correctCount + 1 }
      | Outcome.incorrect =>
          { acc with maxScore := acc.maxScore + q.marks.correct,
                     score := acc.score - q.marks.incorrect,
                     incorrectCount := acc.incorrectCount + 1 } := by
  unfold scoreStep outcomeOf effectiveAnswer claimCorrect
  cases h : (alookup q.id rs).bind (fun r => r.answer) with
  | none => simp
  | some a =>
    by_cases ht : jsTrim a = ""
    · simp [ht]
    · cases hq : q.qtype <;> simp [ht, hq] <;> split <;> simp_all

/-- Folding the loop body over the questions adds the spec-side aggregates to
the initial accumulator. -/
lemma scoreFold (rs : Responses) (qs : List AttemptQuestion) : ∀ acc : ScoreAcc,
    qs.foldl (scoreStep rs) acc =
      { score := acc.score + specSumPositive rs qs - specSumPenalty rs qs,
        maxScore := acc.maxScore + specMaxScore qs,
        correctCount := acc.correctCount + specCount Outcome.correct rs qs,
        incorrectCount := acc.incorrectCount + specCount Outcome.incorrect rs qs,
        unansweredCount := acc.unansweredCount + specCount Outcome.unanswered rs qs } := by
  induction qs with
  | nil => intro acc; simp [specSumPositive, specSumPenalty, specMaxScore, specCount]
  | cons q rest ih =>
    intro acc
    rw [List.foldl_cons, scoreStep_eq]
    cases h : outcomeOf rs q <;>
      simp only [ih, specSumPositive, specSumPenalty, specMaxScore, specCount,
        List.countP_cons, List.map_cons, List.sum_cons, h, decide_eq_true_eq,
        reduceCtorEq, if_true, if_false, reduceIte, ScoreAcc.mk.injEq] <;>
      refine ⟨by ring, by ring, by omega, by omega, by omega⟩

/-- Every question falls into exactly one outcome class. -/
lemma specCount_total (rs : Responses) (qs : List AttemptQuestion) :
    specCount Outcome.correct rs qs + specCount Outcome.incorrect rs qs +
      specCount Outcome.unanswered rs qs = qs.length := by
  induction qs with
  | nil => simp [specCount]
  | cons q rest ih =>
    cases h : outcomeOf rs q <;> simp [specCount, List.countP_cons, h] <;>
      simp [specCount] at ih <;> omega

/-! ## Concrete scoring examples from the spec -/

/-- Test of two `mcq` questions with marks `{correct: 4, incorrect: 1}` each. -/
def exampleTwoMcqQs : List AttemptQuestion :=
  [{ id := "q1", sectionId := "main", qtype := QType.mcq, correctAnswer := some "0",
     marks := { correct := 4, incorrect := 1 } },
   { id := "q2", sectionId := "main", qtype := QType.mcq, correctAnswer := some "1",
     marks := { correct := 4, incorrect := 1 } }]

/-- Responses answering the first question correctly and the second one
incorrectly. -/
def exampleTwoMcqRs : Responses :=
  [("q1", { answer := some "0", markedForReview := false, visited := true, answered := true }),
   ("q2", { answer := some "0", markedForReview := false, visited := true, answered := true })]

/-- Integer-type question with canonical answer `"42"`. -/
def exampleIntQ : AttemptQuestion :=
  { id := "qi", sectionId := "main", qtype := QType.integer, correctAnswer := some "42",
    marks := { correct := 4, incorrect := 1 } }

/-- Response submitting `" 42 "` for that question. -/
def exampleIntRs : Responses :=
  [("qi", { answer := some " 42 ", markedForReview := false, visited := true, answered := true })]

/-! ## Claim theorems -/

/-- C1: `computeScore` returns the score equal to the sum of each correctly
answered question's positive marks minus the sum of each incorrectly answered
question's penalty marks (null, undefined, or blank-after-trimming answers are
unanswered and contribute zero, which the outcome classification encodes);
correct and incorrect counts are the counts of the per-type matching criterion
(untrimmed string equality for `mcq`, trimmed equality for `integer`, so
`" 42 "` against canonical `"42"` is correct); accuracy is
`correctCount / (correctCount + incorrectCount)` when at least one question was
answered and `0` otherwise; and the two-mcq example produces score 3, maxScore
8, counts 1/1/0, accuracy 0.5. -/
theorem computeScore_matches_spec :
    (∀ (qs : List AttemptQuestion) (rs : Responses),
      (computeScore qs rs).score = specSumPositive rs qs - specSumPenalty rs qs ∧
      (computeScore qs rs).correctCount = specCount Outcome.correct rs qs ∧
      (computeScore qs rs).incorrectCount = specCount Outcome.incorrect rs qs ∧
      (computeScore qs rs).unansweredCount = specCount Outcome.unanswered rs qs ∧
      (computeScore qs rs).accuracy =
        (if 0 < specCount Outcome.correct rs qs + specCount Outcome.incorrect rs qs then
           (specCount Outcome.correct rs qs : ℚ) /
             ((specCount Outcome.correct rs qs + specCount Outcome.incorrect rs qs : ℕ) : ℚ)
         else 0)) ∧
    computeScore exampleTwoMcqQs exampleTwoMcqRs =
      { score := 3, maxScore := 8, correctCount := 1, incorrectCount := 1,
        unansweredCount := 0, accuracy := 1 / 2 } ∧
    computeScore [exampleIntQ] exampleIntRs =
      { score := 4, maxScore := 4, correctCount := 1, incorrectCount := 0,
        unansweredCount := 0, accuracy := 1 } := by
  refine ⟨fun qs rs => ?_, ?_, ?_⟩
  · have h := scoreFold rs qs ⟨0, 0, 0, 0, 0⟩
    unfold computeScore
    rw [h]
    refine ⟨by simp, by simp, by simp, by simp, by simp⟩
  · show computeScore exampleTwoMcqQs exampleTwoMcqRs = _
    simp [computeScore, scoreStep, exampleTwoMcqQs, exampleTwoMcqRs, alookup, jsTrim]
    norm_num
  · show computeScore [exampleIntQ] exampleIntRs = _
    simp [computeScore, scoreStep, exampleIntQ, exampleIntRs, alookup, jsTrim]

/-- The finishing branch of the remaining-time computation: once the elapsed
floor reaches the total, the clamp yields zero. -/
lemma computeRemainingSeconds_eq_zero (t0 d nowMs : ℤ)
    (ht : t0 ≠ 0) (hd : 0 < d) (hnow : t0 + 1000 * d ≤ nowMs) :
    computeRemainingSeconds (some t0) (d : ℚ) nowMs = 0 := by
  have hdz : d ≠ 0 := by omega
  have hdq : (d : ℚ) ≠ 0 := by exact_mod_cast hdz
  unfold computeRemainingSeconds
  rw [if_neg hdq]
  show (if t0 = 0 then ((d : ℤ) : ℚ)
        else max 0 ((d : ℚ) - ((⌊(((nowMs : ℤ) : ℚ) - ((t0 : ℤ) : ℚ)) / 1000⌋ : ℤ) : ℚ))) = 0
  rw [if_neg ht]
  have hnow2 : (t0 : ℚ) + 1000 * (d : ℚ) ≤ (nowMs : ℚ) := by exact_mod_cast hnow
  have hle : (d : ℚ) ≤ (((nowMs : ℤ) : ℚ) - ((t0 : ℤ) : ℚ)) / 1000 := by
    rw [le_div_iff₀ (by norm_num : (0 : ℚ) < 1000)]
    linarith
  have hfl : d ≤ ⌊(((nowMs : ℤ) : ℚ) - ((t0 : ℤ) : ℚ)) / 1000⌋ := Int.le_floor.mpr hle
  have hq : (d : ℚ) - ((⌊(((nowMs : ℤ) : ℚ) - ((t0 : ℤ) : ℚ)) / 1000⌋ : ℤ) : ℚ) ≤ 0 := by
    have hc : ((d : ℤ) : ℚ) ≤ ((⌊(((nowMs : ℤ) : ℚ) - ((t0 : ℤ) : ℚ)) / 1000⌋ : ℤ) : ℚ) := by
      exact_mod_cast hfl
    linarith
  exact max_eq_left hq

/-- The flush step resets the pending payload and possibly appends one remote
patch write; it leaves the started flag, the local cache entry, the remote
status and the attempt id untouched. -/
lemma flushPendingSaves_fields (s : AttemptClientState) (f : Bool) :
    (flushPendingSaves s f).1.isStarted = s.isStarted ∧
    (flushPendingSaves s f).1.localCache = s.localCache ∧
    (flushPendingSaves s f).1.remoteStatus = s.remoteStatus ∧
    (flushPendingSaves s f).1.attemptId = s.attemptId := by
  refine ⟨?_, ?_, ?_, ?_⟩ <;> (simp only [flushPendingSaves]; repeat' split) <;> rfl

/-- Neither branch of `handleSubmit` touches the started flag. -/
lemma handleSubmit_isStarted (s : AttemptClientState) (a f k : Bool) :
    (handleSubmit s a f k).1.isStarted = s.isStarted := by
  rcases hsub : flushPendingSaves s f with ⟨s1, ok⟩
  have h1 : s1.isStarted = s.isStarted := by
    have h := (flushPendingSaves_fields s f).1
    rw [hsub] at h
    exact h
  cases hg : submitGuardOk s <;> cases hk : k <;> cases hok : ok <;>
    simp [handleSubmit, hsub, hg, hk, hok, h1]

/-- C7: with start time `T0 ≠ 0` and integer duration `D > 0` seconds, the
computed remaining time is `0` at every wall-clock instant at or after
`T0 + D` (in particular at `T0 + D + 1s`); and `handleStart` invoked on an
existing attempt whose computed remaining time is ≤ 0 routes directly to the
submission path flagged automatic, leaving the component outside the
in-progress state. -/
theorem expired_attempt_routes_to_submit :
    (∀ (t0 d nowMs : ℤ), t0 ≠ 0 → 0 < d → t0 + 1000 * d ≤ nowMs →
      computeRemainingSeconds (some t0) (d : ℚ) nowMs = 0 ∧
      computeRemainingSeconds (some t0) (d : ℚ) (t0 + 1000 * d + 1000) = 0) ∧
    (∀ (s : AttemptClientState) (aid : String) (t0 : ℤ) (newId : String) (flushOk finalizeOk : Bool),
      s.firebaseUserUid.isSome = true → s.testId.isSome = true →
      s.educatorId.isSome = true → s.testMeta.isSome = true →
      s.attemptId = some aid → s.attemptStartedAtMs = some t0 → t0 ≠ 0 →
      computeRemainingSeconds s.attemptStartedAtMs (totalSecOf s) s.nowMs ≤ 0 →
      s.isStarted = false →
      (handleStart s newId flushOk finalizeOk).2 = StartAction.submitAuto ∧
      (handleStart s newId flushOk finalizeOk).1.isStarted = false) := by
  constructor
  · intro t0 d nowMs ht hd hnow
    exact ⟨computeRemainingSeconds_eq_zero t0 d nowMs ht hd hnow,
           computeRemainingSeconds_eq_zero t0 d (t0 + 1000 * d + 1000) ht hd (by omega)⟩
  · intro s aid t0 newId flushOk finalizeOk hu htid heid hmeta haid hstart ht0 hrem hns
    rw [hstart] at hrem
    rcases hsub : handleSubmit s true flushOk finalizeOk with ⟨s1, o⟩
    have h1 : s1.isStarted = s.isStarted := by
      have h := handleSubmit_isStarted s true flushOk finalizeOk
      rw [hsub] at h
      exact h
    have hres : handleStart s newId flushOk finalizeOk = (s1, StartAction.submitAuto) := by
      simp only [handleStart]
      rw [if_neg (by simp [hu, htid, heid, hmeta])]
      rw [if_pos (by simp [haid, hstart, ht0, hrem])]
      rw [hsub]
    rw [hres]
    exact ⟨rfl, by rw [h1, hns]⟩

/-- Concrete attempt state whose remaining time is already over: started at
epoch millisecond 1 with a 60-second duration, consulted at millisecond 61001. -/
def expiredStartState : AttemptClientState :=
  { firebaseUserUid := some "stu", testId := some "t1", educatorId := some "edu",
    testMeta := some { id := "t1", title := "T", subject := none, durationMinutes := 1,
                       sections := [{ id := "main", name := "General" }] },
    questions := [], responses := [], currentIndex := 0,
    attemptId := some "a1", attemptStartedAtMs := some 1, durationSec := 60,
    isStarted := false, pending := [], localCache := some "a1",
    remoteStatus := AttemptStatus.in_progress, remoteLog := [], nowMs := 61001 }

/-- Witness for C7 at a concrete instant and a concrete expired attempt. -/
theorem expired_attempt_routes_to_submit_witness :
    computeRemainingSeconds (some 1) ((60 : ℤ) : ℚ) 60001 = 0 ∧
    (handleStart expiredStartState "new" true true).2 = StartAction.submitAuto ∧
    (handleStart expiredStartState "new" true true).1.isStarted = false := by
  have h60 : ((60 : ℤ) : ℚ) = (60 : ℚ) := by norm_num
  have hz := computeRemainingSeconds_eq_zero 1 60 61001 (by norm_num) (by norm_num) (by norm_num)
  rw [h60] at hz
  have htot : totalSecOf expiredStartState = (60 : ℚ) := by
    norm_num [totalSecOf, jsOrQ, expiredStartState]
  have hrem : computeRemainingSeconds expiredStartState.attemptStartedAtMs
      (totalSecOf expiredStartState) expiredStartState.nowMs ≤ 0 := by
    rw [htot]
    show computeRemainingSeconds (some 1) (60 : ℚ) 61001 ≤ 0
    rw [hz]
  have h2 := expired_attempt_routes_to_submit.2 expiredStartState "a1" 1 "new" true true
    rfl rfl rfl rfl rfl rfl (by norm_num) hrem rfl
  refine ⟨?_, h2.1, h2.2⟩
  have h1 := (expired_attempt_routes_to_submit.1 1 60 60001 (by norm_num) (by norm_num)
    (by norm_num)).1
  exact h1

/-- C9: the load step tries the tenant-owned educator source first and the
shared `test_series` source second; the first source whose test document exists
wins, and its entire question subcollection is loaded (the shared source is
never consulted when the tenant-owned document exists, even with an empty
tenant-owned question set); a missing document on both sources fails with the
test-not-found condition, and a winning source with zero questions fails with
the no-questions condition. -/
theorem load_prefers_tenant_source :
    (∀ (src : TestSource) (s2 s2' : Option TestSource),
      loadTestAndQuestions (some src) s2 = loadTestAndQuestions (some src) s2' ∧
      (src.questions = [] →
        loadTestAndQuestions (some src) s2 = Except.error "No questions found in this test") ∧
      (src.questions ≠ [] →
        loadTestAndQuestions (some src) s2 = Except.ok (mkTestMeta src.data, src.questions))) ∧
    (∀ src : TestSource,
      (src.questions = [] →
        loadTestAndQuestions none (some src) = Except.error "No questions found in this test") ∧
      (src.questions ≠ [] →
        loadTestAndQuestions none (some src) = Except.ok (mkTestMeta src.data, src.questions))) ∧
    loadTestAndQuestions none none = Except.error "Test not found" := by
  refine ⟨fun src s2 s2' => ⟨rfl, fun h => ?_, fun h => ?_⟩,
          fun src => ⟨fun h => ?_, fun h => ?_⟩, rfl⟩ <;>
    simp [loadTestAndQuestions, h]

/-- Concrete one-question source used by the load witness. -/
def exampleSource : TestSource :=
  { data := { id := "t1", title := some "Sample", subject := some "Physics",
              durationMinutes := some 30, sections := [] },
    questions := [exampleIntQ] }

/-- Concrete zero-question source used by the load witness. -/
def exampleEmptySource : TestSource :=
  { data := { id := "t1", title := none, subject := none, durationMinutes := none, sections := [] },
    questions := [] }

/-- Witness for C9: a tenant-owned document with an empty question set loses to
nobody — the shared source is ignored and the load fails with the no-questions
condition — while a missing tenant-owned document falls back to the shared
source. -/
theorem load_prefers_tenant_source_witness :
    loadTestAndQuestions (some exampleEmptySource) (some exampleSource) =
      Except.error "No questions found in this test" ∧
    loadTestAndQuestions none (some exampleSource) =
      Except.ok (mkTestMeta exampleSource.data, [exampleIntQ]) ∧
    loadTestAndQuestions none none = Except.error "Test not found" := by
  refine ⟨(load_prefers_tenant_source.1 exampleEmptySource (some exampleSource)
            (some exampleSource)).2.1 rfl,
          (load_prefers_tenant_source.2.1 exampleSource).2 (by simp [exampleSource]),
          load_prefers_tenant_source.2.2⟩

/-- C3: a locally cached attempt id is accepted as the active attempt exactly
when the fetched document exists, belongs to the signed-in student, targets the
same test, has the resolved educator id, and is still `in_progress`; a cached
attempt of a different student, a different test, or already `submitted` is
rejected — the loader returns null, the stale cache entry is removed, and
discovery falls back to the creation-time-descending query limited to one
result (whose hit, if any, becomes the active attempt and is cached). -/
theorem resume_rejects_foreign_or_submitted :
    (∀ (store : String → Option AttemptDocR) (uid tid eid cid : String),
      (loadAttemptById store uid tid eid cid).isSome = true ↔
        ∃ a, store cid = some a ∧ a.studentId = uid ∧ a.testId = tid ∧
          a.educatorId = eid ∧ a.status = AttemptStatus.in_progress) ∧
    (∀ (store : String → Option AttemptDocR) (uid tid eid cid : String) (a : AttemptDocR)
        (qr : Option (String × AttemptDocR)),
      store cid = some a →
      (a.studentId ≠ uid ∨ a.testId ≠ tid ∨ a.status = AttemptStatus.submitted) →
      loadAttemptById store uid tid eid cid = none ∧
      discoverResume store uid tid eid (some cid) qr =
        (match qr with
         | some (i, d) => (some (i, d), some i)
         | none => (none, none))) := by
  constructor
  · intro store uid tid eid cid
    cases h : store cid with
    | none => simp [loadAttemptById, h]
    | some a =>
      simp only [loadAttemptById, h]
      split_ifs <;> simp_all
  · intro store uid tid eid cid a qr hstore hrej
    have hload : loadAttemptById store uid tid eid cid = none := by
      simp only [loadAttemptById, hstore]
      rcases hrej with h | h | h
      · rw [if_pos h]
      · split_ifs <;> simp_all
      · split_ifs <;> simp_all
    refine ⟨hload, ?_⟩
    simp only [discoverResume, hload]
    cases qr <;> simp

/-- Concrete store holding one submitted attempt under id `"a1"`, used by the
resume witness. -/
def exampleSubmittedStore : String → Option AttemptDocR := fun id =>
  if id = "a1" then
    some { studentId := "stu", educatorId := "edu", testId := "t1",
           status := AttemptStatus.submitted, startedAtMs := some 5,
           durationSec := some 60, currentIndex := some 0, responses := [] }
  else none

/-- Witness for C3: a cached id pointing at an already submitted attempt is
rejected, the cache entry is dropped, and with an empty fallback query no
active attempt is produced. -/
theorem resume_rejects_foreign_or_submitted_witness :
    loadAttemptById exampleSubmittedStore "stu" "t1" "edu" "a1" = none ∧
    discoverResume exampleSubmittedStore "stu" "t1" "edu" (some "a1") none = (none, none) ∧
    (loadAttemptById exampleSubmittedStore "stu" "t1" "edu" "missing").isSome = false := by
  have h := resume_rejects_foreign_or_submitted.2 exampleSubmittedStore "stu" "t1" "edu" "a1"
    { studentId := "stu", educatorId := "edu", testId := "t1",
      status := AttemptStatus.submitted, startedAtMs := some 5,
      durationSec := some 60, currentIndex := some 0, responses := [] }
    none (by simp [exampleSubmittedStore]) (Or.inr (Or.inr rfl))
  refine ⟨h.1, h.2, ?_⟩
  have hm := (resume_rejects_foreign_or_submitted.1 exampleSubmittedStore "stu" "t1" "edu" "missing")
  simp only [Bool.eq_false_iff]
  intro hcontra
  obtain ⟨a, ha, -⟩ := hm.mp hcontra
  simp [exampleSubmittedStore] at ha

/-- C2: on an existing attempt with all context present, a successful submit
first writes the pending debounced payload (when nonempty) and then, in a
single finalizing write, marks the attempt `submitted` with the computed score
fields and elapsed time, removing the local resume cache entry and navigating
to results (auto-flagged when automatic); when the finalizing write fails, the
attempt's remote status remains `in_progress`, the cache entry stays, and only
the flushed patch reached the store. -/
theorem submit_flushes_then_finalizes (s : AttemptClientState) (aid : String) (isAuto : Bool)
    (haid : s.attemptId = some aid)
    (hu : s.firebaseUserUid.isSome = true) (htid : s.testId.isSome = true)
    (heid : s.educatorId.isSome = true) (hmeta : s.testMeta.isSome = true)
    (hstat : s.remoteStatus = AttemptStatus.in_progress) :
    ((handleSubmit s isAuto true true).1.remoteStatus = AttemptStatus.submitted ∧
     (handleSubmit s isAuto true true).1.remoteLog =
       s.remoteLog ++ (if s.pending = [] then [] else [RemoteWrite.patchWrite s.pending]) ++
         [RemoteWrite.finalizeWrite (computeScore s.questions s.responses) (submitTimeTaken s)] ∧
     (handleSubmit s isAuto true true).1.localCache = none ∧
     (handleSubmit s isAuto true true).2 = SubmitOutcome.navigated aid isAuto) ∧
    ((handleSubmit s isAuto true false).1.remoteStatus = AttemptStatus.in_progress ∧
     (handleSubmit s isAuto true false).1.localCache = s.localCache ∧
     (handleSubmit s isAuto true false).1.remoteLog =
       s.remoteLog ++ (if s.pending = [] then [] else [RemoteWrite.patchWrite s.pending]) ∧
     (handleSubmit s isAuto true false).2 = SubmitOutcome.finalizeFailed) := by
  have hguard : submitGuardOk s = true := by
    simp [submitGuardOk, haid, hu, htid, heid, hmeta]
  by_cases hp : s.pending = [] <;>
    simp_all [handleSubmit, flushPendingSaves, haid, hguard, hstat]

/-- Concrete in-progress attempt state with one pending patch, used by the
submit witness. -/
def submitReadyState : AttemptClientState :=
  { firebaseUserUid := some "stu", testId := some "t1", educatorId := some "edu",
    testMeta := some { id := "t1", title := "T", subject := none, durationMinutes := 1,
                       sections := [{ id := "main", name := "General" }] },
    questions := [exampleIntQ], responses := exampleIntRs, currentIndex := 0,
    attemptId := some "a2", attemptStartedAtMs := some 1000, durationSec := 60,
    isStarted := true, pending := [("currentIndex", JsValue.n 0)],
    localCache := some "a2", remoteStatus := AttemptStatus.in_progress,
    remoteLog := [], nowMs := 31000 }

/-- Witness for C2 on the concrete state: a successful finalizing write flushes
the pending patch first and clears the cache, a failed one keeps the attempt
`in_progress` with the cache entry intact. -/
theorem submit_flushes_then_finalizes_witness :
    (handleSubmit submitReadyState false true true).1.remoteStatus = AttemptStatus.submitted ∧
    (handleSubmit submitReadyState false true true).1.remoteLog =
      [RemoteWrite.patchWrite [("currentIndex", JsValue.n 0)],
       RemoteWrite.finalizeWrite (computeScore [exampleIntQ] exampleIntRs)
         (submitTimeTaken submitReadyState)] ∧
    (handleSubmit submitReadyState false true true).1.localCache = none ∧
    (handleSubmit submitReadyState false true false).1.remoteStatus =
      AttemptStatus.in_progress ∧
    (handleSubmit submitReadyState false true false).1.localCache = some "a2" := by
  have h := submit_flushes_then_finalizes submitReadyState "a2" false rfl rfl rfl rfl rfl rfl
  refine ⟨h.1.1, ?_, h.1.2.2.1, h.2.1, h.2.2.1⟩
  have hlog := h.1.2.1
  simpa [submitReadyState] using hlog

/-! ## Mark-visited helper lemmas -/

/-- Updating a present key makes the lookup return the new value. -/
lemma alookup_aupdate_self {V : Type} (k : String) (v : V) :
    ∀ l : List (String × V), (alookup k l).isSome = true → alookup k (aupdate k v l) = some v := by
  intro l
  induction l with
  | nil => simp [alookup]
  | cons kv rest ih =>
    by_cases hk : kv.1 = k
    · simp [alookup, aupdate, hk]
    · simp [alookup, aupdate, hk]
      exact ih

/-- A question whose response is already visited (or absent, or a disabled
component) leaves the mark-visited effect inert. -/
lemma markVisitedEffect_inert (started : Bool) (aid : Option String) (q : AttemptQuestion)
    (idx : ℤ) (rs : Responses)
    (h : ∀ cur, alookup q.id rs = some cur → cur.visited = true) :
    markVisitedEffect started aid (some q) idx rs = (rs, none) := by
  unfold markVisitedEffect
  split
  · rfl
  · cases hl : alookup q.id rs with
    | none => simp [hl]
    | some cur => simp [hl, h cur hl]

/-- An inert effect keeps every further iteration inert. -/
lemma markVisitedIter_inert (started : Bool) (aid : Option String)
    (qo : Option AttemptQuestion) (idx : ℤ) (rs : Responses)
    (h : markVisitedEffect started aid qo idx rs = (rs, none)) :
    ∀ n, markVisitedIter started aid qo idx n rs = (rs, 0) := by
  intro n
  induction n with
  | zero => rfl
  | succ n ih => simp [markVisitedIter, h, ih]

/-- Case analysis of one mark-visited invocation: either it is inert, or the
question's response exists unvisited and the effect sets the flag and enqueues
the one patch carrying the visited path and the piggybacked index. -/
lemma markVisitedEffect_cases (started : Bool) (aid : Option String)
    (qo : Option AttemptQuestion) (idx : ℤ) (rs : Responses) :
    markVisitedEffect started aid qo idx rs = (rs, none) ∨
    ∃ q cur, qo = some q ∧ alookup q.id rs = some cur ∧ cur.visited = false ∧
      markVisitedEffect started aid qo idx rs =
        (aupdate q.id { cur with visited := true } rs,
         some [("responses." ++ q.id ++ ".visited", JsValue.b true),
               ("currentIndex", JsValue.n (idx : ℚ))]) := by
  unfold markVisitedEffect
  split
  · exact Or.inl rfl
  · cases qo with
    | none => simp
    | some q =>
      cases hl : alookup q.id rs with
      | none => simp [hl]
      | some cur =>
        by_cases hv : cur.visited = true
        · simp [hl, hv]
        · simp only [Bool.not_eq_true] at hv
          exact Or.inr ⟨q, cur, rfl, hl, hv, by simp [hl, hv]⟩

/-- C8: navigating to a question whose response already has `visited = true`
leaves the response map unchanged and enqueues no remote patch; over any number
of navigations at most one patch is ever enqueued; and on the first navigation
to a present, unvisited question exactly one patch is enqueued, carrying the
visited field path together with the piggybacked current index, after which the
flag is set. -/
theorem mark_visited_idempotent :
    (∀ (started : Bool) (aid : Option String) (q : AttemptQuestion) (idx : ℤ)
        (rs : Responses) (cur : AttemptResponse),
      alookup q.id rs = some cur → cur.visited = true →
      markVisitedEffect started aid (some q) idx rs = (rs, none)) ∧
    (∀ (started : Bool) (aid : Option String) (qo : Option AttemptQuestion) (idx : ℤ)
        (n : ℕ) (rs : Responses),
      (markVisitedIter started aid qo idx n rs).2 ≤ 1) ∧
    (∀ (aid : String) (q : AttemptQuestion) (idx : ℤ) (rs : Responses)
        (cur : AttemptResponse) (n : ℕ),
      alookup q.id rs = some cur → cur.visited = false →
      (markVisitedEffect true (some aid) (some q) idx rs).2 =
        some [("responses." ++ q.id ++ ".visited", JsValue.b true),
              ("currentIndex", JsValue.n (idx : ℚ))] ∧
      alookup q.id (markVisitedEffect true (some aid) (some q) idx rs).1 =
        some { cur with visited := true } ∧
      (markVisitedIter true (some aid) (some q) idx (n + 1) rs).2 = 1) := by
  have hinert : ∀ (started : Bool) (aid : Option String) (q : AttemptQuestion) (idx : ℤ)
      (rs : Responses) (cur : AttemptResponse),
      alookup q.id rs = some cur → cur.visited = true →
      markVisitedEffect started aid (some q) idx rs = (rs, none) := by
    intro started aid q idx rs cur hl hv
    exact markVisitedEffect_inert started aid q idx rs (fun c hc => by
      rw [hl] at hc
      cases hc
      exact hv)
  refine ⟨hinert, ?_, ?_⟩
  · intro started aid qo idx n rs
    cases n with
    | zero => simp [markVisitedIter]
    | succ n =>
      rcases markVisitedEffect_cases started aid qo idx rs with h | ⟨q, cur, hq, hl, hv, h⟩
      · rw [markVisitedIter_inert started aid qo idx rs h (n + 1)]
        simp
      · subst hq
        have hrest : markVisitedEffect started aid (some q) idx
            (aupdate q.id { cur with visited := true } rs) =
            (aupdate q.id { cur with visited := true } rs, none) := by
          apply markVisitedEffect_inert
          intro c hc
          rw [alookup_aupdate_self q.id { cur with visited := true } rs (by simp [hl])] at hc
          cases hc
          rfl
        simp [markVisitedIter, h, markVisitedIter_inert _ _ _ _ _ hrest n]
  · intro aid q idx rs cur n hl hv
    rcases markVisitedEffect_cases true (some aid) (some q) idx rs with h | ⟨q2, cur2, hq2, hl2, hv2, h⟩
    · exfalso
      unfold markVisitedEffect at h
      simp [hl, hv] at h
    · cases hq2
      rw [hl] at hl2
      cases hl2
      have hrest : markVisitedEffect true (some aid) (some q) idx
          (aupdate q.id { cur with visited := true } rs) =
          (aupdate q.id { cur with visited := true } rs, none) := by
        apply markVisitedEffect_inert
        intro c hc
        rw [alookup_aupdate_self q.id { cur with visited := true } rs (by simp [hl])] at hc
        cases hc
        rfl
      refine ⟨by rw [h], ?_, ?_⟩
      · rw [h]
        exact alookup_aupdate_self q.id { cur with visited := true } rs (by simp [hl])
      · simp [markVisitedIter, h, markVisitedIter_inert _ _ _ _ _ hrest n]

/-- Witness for C8: on a one-question response map the first navigation patches
once, three navigations still patch once in total, and a pre-visited response
is left alone. -/
theorem mark_visited_idempotent_witness :
    (markVisitedIter true (some "a1") (some exampleIntQ) 0 3
      [("qi", { answer := none, markedForReview := false, visited := false, answered := false })]).2
      = 1 ∧
    markVisitedEffect true (some "a1") (some exampleIntQ) 0
      [("qi", { answer := none, markedForReview := false, visited := true, answered := false })] =
      ([("qi", { answer := none, markedForReview := false, visited := true, answered := false })],
       none) := by
  constructor
  · exact (mark_visited_idempotent.2.2 "a1" exampleIntQ 0
      [("qi", { answer := none, markedForReview := false, visited := false, answered := false })]
      { answer := none, markedForReview := false, visited := false, answered := false } 2
      (by simp [alookup, exampleIntQ]) rfl).2.2
  · exact mark_visited_idempotent.1 true (some "a1") exampleIntQ 0
      [("qi", { answer := none, markedForReview := false, visited := true, answered := false })]
      { answer := none, markedForReview := false, visited := true, answered := false }
      (by simp [alookup, exampleIntQ]) rfl

/-- C10: the outcome counts of `computeScore` partition the question list, and
`maxScore` is the sum of every question's positive marks, independent of the
response map. -/
theorem computeScore_counts_partition (qs : List AttemptQuestion) (rs : Responses) :
    (computeScore qs rs).correctCount + (computeScore qs rs).incorrectCount +
        (computeScore qs rs).unansweredCount = qs.length ∧
    (computeScore qs rs).maxScore = specMaxScore qs ∧
    ∀ rs2 : Responses, (computeScore qs rs2).maxScore = (computeScore qs rs).maxScore := by
  have hmax : ∀ r : Responses, (computeScore qs r).maxScore = specMaxScore qs := by
    intro r
    have h := scoreFold r qs ⟨0, 0, 0, 0, 0⟩
    unfold computeScore
    rw [h]
    simp
  refine ⟨?_, hmax rs, fun rs2 => (hmax rs2).trans (hmax rs).symm⟩
  have h := scoreFold rs qs ⟨0, 0, 0, 0, 0⟩
  unfold computeScore
  rw [h]
  simpa using specCount_total rs qs

/-- C5: every redemption failure condition produces its distinct error with no
state mutation — missing code document, bound test id absent or different,
usage counter at or above a positive cap, past expiry — each mapped to a
distinct user-facing toast; in particular a code bound to `testX` redeemed
against `testY` fails with the does-not-match condition and mutates nothing. -/
theorem redeem_failures_distinct_no_mutation :
    (∀ (s : TxState) (uid eid tid code : String) (slug : Option String) (nowMs : ℤ),
      (s.codeDoc = none →
        runRedeem s uid eid tid code slug nowMs = (s, Except.error "Invalid code")) ∧
      (∀ c, s.codeDoc = some c → (c.testSeriesId = "" ∨ c.testSeriesId ≠ tid) →
        runRedeem s uid eid tid code slug nowMs =
          (s, Except.error "Code does not match this test")) ∧
      (∀ c, s.codeDoc = some c → c.testSeriesId ≠ "" → c.testSeriesId = tid →
        0 < c.maxUses → c.maxUses ≤ c.usesUsed →
        runRedeem s uid eid tid code slug nowMs = (s, Except.error "Code exhausted")) ∧
      (∀ c, s.codeDoc = some c → c.testSeriesId ≠ "" → c.testSeriesId = tid →
        ¬(0 < c.maxUses ∧ c.maxUses ≤ c.usesUsed) → isExpired c.expiresAtMs nowMs = true →
        runRedeem s uid eid tid code slug nowMs = (s, Except.error "Code expired"))) ∧
    (redeemErrorToast "Invalid code" = "Invalid access code." ∧
     redeemErrorToast "Code does not match this test" = "This code is for a different test." ∧
     redeemErrorToast "Code exhausted" = "This code has reached its maximum uses." ∧
     redeemErrorToast "Code expired" = "This code is expired.") ∧
    runRedeem { codeDoc := some { testSeriesId := "testX", maxUses := 0, usesUsed := 0,
                                  expiresAtMs := none },
                unlockDoc := none } "stu" "edu" "testY" "AB" none 0 =
      ({ codeDoc := some { testSeriesId := "testX", maxUses := 0, usesUsed := 0,
                           expiresAtMs := none },
         unlockDoc := none }, Except.error "Code does not match this test") := by
  refine ⟨fun s uid eid tid code slug nowMs => ⟨?_, ?_, ?_, ?_⟩, by decide, ?_⟩
  · intro hc
    simp [runRedeem, redeemCodeTxn, hc]
  · intro c hc hmm
    simp only [runRedeem, redeemCodeTxn, hc]
    rw [if_pos hmm]
  · intro c hc h1 h2 h3 h4
    simp only [runRedeem, redeemCodeTxn, hc]
    rw [if_neg (by push_neg; exact ⟨h1, by rw [h2]⟩)]
    rw [if_pos ⟨h3, h4⟩]
  · intro c hc h1 h2 h3 h4
    simp only [runRedeem, redeemCodeTxn, hc]
    rw [if_neg (by push_neg; exact ⟨h1, by rw [h2]⟩)]
    rw [if_neg h3]
    rw [if_pos h4]
  · simp only [runRedeem, redeemCodeTxn]
    rw [if_pos (Or.inr (by decide))]

/-- Witness for C5 at concrete inputs: a missing code document and an exhausted
code each fail with their own message, unchanged state. -/
theorem redeem_failures_distinct_no_mutation_witness :
    runRedeem { codeDoc := none, unlockDoc := none } "stu" "edu" "t1" "AB" none 0 =
      ({ codeDoc := none, unlockDoc := none }, Except.error "Invalid code") ∧
    runRedeem { codeDoc := some { testSeriesId := "t1", maxUses := 1, usesUsed := 1,
                                  expiresAtMs := none }, unlockDoc := none }
        "stu" "edu" "t1" "AB" none 0 =
      ({ codeDoc := some { testSeriesId := "t1", maxUses := 1, usesUsed := 1,
                           expiresAtMs := none }, unlockDoc := none },
       Except.error "Code exhausted") := by
  constructor
  · exact ((redeem_failures_distinct_no_mutation.1
      { codeDoc := none, unlockDoc := none } "stu" "edu" "t1" "AB" none 0).1 rfl)
  · exact ((redeem_failures_distinct_no_mutation.1
      { codeDoc := some { testSeriesId := "t1", maxUses := 1, usesUsed := 1,
                          expiresAtMs := none }, unlockDoc := none }
      "stu" "edu" "t1" "AB" none 0).2.2.1
      { testSeriesId := "t1", maxUses := 1, usesUsed := 1, expiresAtMs := none }
      rfl (by decide) rfl (by norm_num) (by norm_num))

/-- State of the C4 counterexample before redemption: a fresh single-use code
bound to test `t1`, no unlock yet. -/
def retryStateBefore : TxState :=
  { codeDoc := some { testSeriesId := "t1", maxUses := 1, usesUsed := 0, expiresAtMs := none },
    unlockDoc := none }

/-- State after the first successful redemption: the unlock record exists and
the single-use code is now at its cap. -/
def retryStateAfter : TxState :=
  { codeDoc := some { testSeriesId := "t1", maxUses := 1, usesUsed := 1, expiresAtMs := none },
    unlockDoc := some { studentId := "stu", educatorId := "edu", tenantSlug := none,
                        testSeriesId := "t1", unlockedVia := "accessCode", accessCode := "AB" } }

/-- Counterexample to C4 as stated: the first redemption of a fresh single-use
code succeeds and consumes it, and the second run of the same transaction for
the same (student, educator, test) triple — with the unlock record already at
its deterministic id — does not return successfully: it fails with
`"Code exhausted"`, because the usage-cap check runs before the
already-unlocked check. -/
theorem redeem_retry_counterexample :
    runRedeem retryStateBefore "stu" "edu" "t1" "AB" none 0 =
      (retryStateAfter, Except.ok ()) ∧
    retryStateAfter.unlockDoc.isSome = true ∧
    runRedeem retryStateAfter "stu" "edu" "t1" "AB" none 0 =
      (retryStateAfter, Except.error "Code exhausted") := by
  refine ⟨?_, rfl, ?_⟩
  · simp only [runRedeem, redeemCodeTxn, retryStateBefore, retryStateAfter]
    rw [if_neg (by decide)]
    rw [if_neg (by norm_num)]
    rw [if_neg (by simp [isExpired])]
    norm_num [TxState.mk.injEq, AccessCode.mk.injEq, UnlockRecord.mk.injEq]
  · simp only [runRedeem, redeemCodeTxn, retryStateAfter]
    rw [if_neg (by decide)]
    rw [if_pos (by norm_num)]

/-- C4 (amended): when the unlock record for the (student, educator, test)
triple already exists, the transaction never mutates state — it neither creates
a second unlock record nor increments the code's counter — and it returns
successfully provided the code still passes the validity checks (present, bound
to this test, under a positive cap, unexpired); a retry against a code that has
meanwhile become exhausted or expired fails with that validation error instead
of succeeding, still without mutation. -/
theorem redeem_unlock_exists_idempotent (s : TxState) (uid eid tid code : String)
    (slug : Option String) (nowMs : ℤ) (u : UnlockRecord)
    (hu : s.unlockDoc = some u) :
    (runRedeem s uid eid tid code slug nowMs).1 = s ∧
    (∀ c, s.codeDoc = some c → c.testSeriesId ≠ "" → c.testSeriesId = tid →
      ¬(0 < c.maxUses ∧ c.maxUses ≤ c.usesUsed) → isExpired c.expiresAtMs nowMs = false →
      runRedeem s uid eid tid code slug nowMs = (s, Except.ok ())) := by
  constructor
  · cases hc : s.codeDoc with
    | none => simp [runRedeem, redeemCodeTxn, hc]
    | some c =>
      simp only [runRedeem, redeemCodeTxn, hc, hu]
      split_ifs <;> rfl
  · intro c hc h1 h2 h3 h4
    simp only [runRedeem, redeemCodeTxn, hc, hu]
    rw [if_neg (by push_neg; exact ⟨h1, by rw [h2]⟩)]
    rw [if_neg h3]
    rw [if_neg (by simp [h4])]

/-- Witness for the amended C4: re-running the redemption on a state whose
unlock exists and whose code is a still-valid multi-use code is a no-op
success; on the exhausted single-use state it is still a no-op. -/
theorem redeem_unlock_exists_idempotent_witness :
    runRedeem { codeDoc := some { testSeriesId := "t1", maxUses := 5, usesUsed := 1,
                                  expiresAtMs := none },
                unlockDoc := some { studentId := "stu", educatorId := "edu", tenantSlug := none,
                                    testSeriesId := "t1", unlockedVia := "accessCode",
                                    accessCode := "AB" } }
        "stu" "edu" "t1" "AB" none 0 =
      ({ codeDoc := some { testSeriesId := "t1", maxUses := 5, usesUsed := 1,
                           expiresAtMs := none },
         unlockDoc := some { studentId := "stu", educatorId := "edu", tenantSlug := none,
                             testSeriesId := "t1", unlockedVia := "accessCode",
                             accessCode := "AB" } }, Except.ok ()) ∧
    (runRedeem retryStateAfter "stu" "edu" "t1" "AB" none 0).1 = retryStateAfter := by
  constructor
  · exact (redeem_unlock_exists_idempotent _ "stu" "edu" "t1" "AB" none 0 _ rfl).2
      { testSeriesId := "t1", maxUses := 5, usesUsed := 1, expiresAtMs := none }
      rfl (by decide) rfl (by norm_num) rfl
  · exact (redeem_unlock_exists_idempotent retryStateAfter "stu" "edu" "t1" "AB" none 0
      { studentId := "stu", educatorId := "edu", tenantSlug := none,
        testSeriesId := "t1", unlockedVia := "accessCode", accessCode := "AB" } rfl).1

/-! ## Rankings lemmas -/

/-- Lookup distributes over append, the left list winning. -/
lemma alookup_append {V : Type} (k : String) (xs ys : List (String × V)) :
    alookup k (xs ++ ys) =
      (match alookup k xs with
       | some v => some v
       | none => alookup k ys) := by
  induction xs with
  | nil => simp [alookup]
  | cons kv rest ih =>
    obtain ⟨k2, v⟩ := kv
    by_cases hk : k2 = k <;> simp [alookup, hk, ih]

/-- Updating one key leaves lookups of other keys unchanged. -/
lemma alookup_aupdate_other {V : Type} (k k0 : String) (v : V) (h : k0 ≠ k) :
    ∀ l : List (String × V), alookup k (aupdate k0 v l) = alookup k l := by
  intro l
  induction l with
  | nil => simp [alookup, aupdate]
  | cons kv rest ih =>
    obtain ⟨k2, v2⟩ := kv
    by_cases hk : k2 = k0
    · subst hk
      simp [alookup, aupdate, h]
    · simp [alookup, aupdate, hk, ih]

/-- The weak (at-most) order underlying the replace-best comparison: not
strictly better means lexicographically at most on (integer percentage, raw
score, negated time). -/
def keyLe (a b : RankAttempt) : Prop :=
  pctOf a < pctOf b ∨
    (pctOf a = pctOf b ∧
      (rScore a < rScore b ∨ (rScore a = rScore b ∧ rTime b ≤ rTime a)))

lemma keyLe_refl (a : RankAttempt) : keyLe a a :=
  Or.inr ⟨rfl, Or.inr ⟨rfl, le_refl _⟩⟩

lemma keyLe_trans {a b c : RankAttempt} (hab : keyLe a b) (hbc : keyLe b c) : keyLe a c := by
  rcases hab with h | ⟨he, h2⟩ <;> rcases hbc with g | ⟨ge, g2⟩
  · exact Or.inl (h.trans g)
  · exact Or.inl (by rw [← ge]; exact h)
  · exact Or.inl (by rw [he]; exact g)
  · right
    refine ⟨he.trans ge, ?_⟩
    rcases h2 with hs | ⟨hse, ht⟩ <;> rcases g2 with gs | ⟨gse, gt⟩
    · exact Or.inl (hs.trans gs)
    · exact Or.inl (by rw [← gse]; exact hs)
    · exact Or.inl (by rw [hse]; exact gs)
    · exact Or.inr ⟨hse.trans gse, gt.trans ht⟩

lemma betterThan_false_iff (a b : RankAttempt) : betterThan a b = false ↔ keyLe a b := by
  unfold betterThan keyLe
  rcases lt_trichotomy (pctOf a) (pctOf b) with hp | hp | hp
  · have h1 : ¬(pctOf a > pctOf b) := lt_asymm hp
    have h2 : pctOf a ≠ pctOf b := ne_of_lt hp
    simp [h1, h2, hp]
  · have h1 : ¬(pctOf a > pctOf b) := by rw [hp]; exact lt_irrefl _
    rcases lt_trichotomy (rScore a) (rScore b) with hs | hs | hs
    · have h2 : ¬(rScore a > rScore b) := lt_asymm hs
      simp [h1, h2, hp, hs, ne_of_lt hs]
    · have h2 : ¬(rScore a > rScore b) := by rw [hs]; exact lt_irrefl _
      rcases le_or_lt (rTime b) (rTime a) with ht | ht
      · have h3 : ¬(rTime a < rTime b) := not_lt.mpr ht
        simp [h1, h2, h3, hp, hs, ht]
      · simp [h1, h2, hp, hs, ht, not_le_of_gt ht]
    · have h2 : rScore a > rScore b := hs
      simp [h1, h2, hp, lt_asymm hs, ne_of_gt hs]
  · simp [hp, lt_asymm hp, ne_of_gt hp]

lemma betterThan_true_keyLe (a b : RankAttempt) (h : betterThan a b = true) : keyLe b a := by
  unfold betterThan at h
  split_ifs at h with h1 h2 h3
  · exact Or.inl h1
  · exact Or.inr ⟨h2.1.symm, Or.inl h2.2⟩
  · exact Or.inr ⟨h3.1.symm, Or.inr ⟨h3.2.1.symm, le_of_lt h3.2.2⟩⟩

/-- Fold invariant of `pickBestAttemptsPerStudent`: whatever the selected entry
of a student is after processing the list from an intermediate best-map, it is
at least every processed attempt of that student (and every previously stored
candidate) in the (percentage, score, time) order, and it comes from the map or
the list. -/
lemma pickBest_fold_inv :
    ∀ (l : List RankAttempt) (acc : List (String × RankAttempt)) (uid : String)
      (sel : RankAttempt),
      uid ≠ "" →
      alookup uid (l.foldl pickStep acc) = some sel →
      (alookup uid acc = some sel ∨ (sel ∈ l ∧ sel.studentId = uid)) ∧
      (∀ cur, alookup uid acc = some cur → keyLe cur sel) ∧
      (∀ a ∈ l, a.studentId = uid → keyLe a sel) := by
  intro l
  induction l with
  | nil =>
    intro acc uid sel huid h
    rw [List.foldl_nil] at h
    refine ⟨Or.inl h, ?_, by simp⟩
    intro cur hc
    rw [h] at hc
    cases hc
    exact keyLe_refl _
  | cons a0 l ih =>
    intro acc uid sel huid h
    rw [List.foldl_cons] at h
    obtain ⟨hmem, hacc, hall⟩ := ih (pickStep acc a0) uid sel huid h
    by_cases hid : a0.studentId = ""
    · have hP : pickStep acc a0 = acc := by simp [pickStep, hid]
      rw [hP] at hmem hacc
      refine ⟨?_, hacc, ?_⟩
      · rcases hmem with h1 | h1
        · exact Or.inl h1
        · exact Or.inr ⟨List.mem_cons_of_mem _ h1.1, h1.2⟩
      · intro a ha hau
        rcases List.mem_cons.mp ha with rfl | ha
        · exact absurd (hau.symm.trans hid) huid
        · exact hall a ha hau
    · by_cases huq : a0.studentId = uid
      · subst huq
        cases hlk : alookup a0.studentId acc with
        | none =>
          have hP : pickStep acc a0 = acc ++ [(a0.studentId, a0)] := by
            simp [pickStep, hid, hlk]
          have hlook : alookup a0.studentId (acc ++ [(a0.studentId, a0)]) = some a0 := by
            rw [alookup_append, hlk]
            simp [alookup]
          rw [hP] at hmem hacc
          refine ⟨?_, ?_, ?_⟩
          · rcases hmem with h1 | h1
            · rw [hlook] at h1
              cases h1
              exact Or.inr ⟨List.mem_cons_self _ _, rfl⟩
            · exact Or.inr ⟨List.mem_cons_of_mem _ h1.1, h1.2⟩
          · intro cur hc
            exact Option.noConfusion hc
          · intro a ha hau
            rcases List.mem_cons.mp ha with rfl | ha
            · exact hacc a hlook
            · exact hall a ha hau
        | some cur0 =>
          by_cases hbt : betterThan a0 cur0 = true
          · have hP : pickStep acc a0 = aupdate a0.studentId a0 acc := by
              simp [pickStep, hid, hlk, hbt]
            have hlook : alookup a0.studentId (aupdate a0.studentId a0 acc) = some a0 :=
              alookup_aupdate_self _ _ _ (by simp [hlk])
            rw [hP] at hmem hacc
            have hsel0 : keyLe a0 sel := hacc a0 hlook
            refine ⟨?_, ?_, ?_⟩
            · rcases hmem with h1 | h1
              · rw [hlook] at h1
                cases h1
                exact Or.inr ⟨List.mem_cons_self _ _, rfl⟩
              · exact Or.inr ⟨List.mem_cons_of_mem _ h1.1, h1.2⟩
            · intro cur hc
              cases hc
              exact keyLe_trans (betterThan_true_keyLe _ _ hbt) hsel0
            · intro a ha hau
              rcases List.mem_cons.mp ha with rfl | ha
              · exact hsel0
              · exact hall a ha hau
          · have hbf : betterThan a0 cur0 = false := by
              simpa using hbt
            have hP : pickStep acc a0 = acc := by
              simp [pickStep, hid, hlk, hbf]
            rw [hP] at hmem hacc
            have hcur0 : keyLe cur0 sel := hacc cur0 hlk
            refine ⟨?_, ?_, ?_⟩
            · rcases hmem with h1 | h1
              · rw [← hlk]
                exact Or.inl h1
              · exact Or.inr ⟨List.mem_cons_of_mem _ h1.1, h1.2⟩
            · intro cur hc
              cases hc
              exact hcur0
            · intro a ha hau
              rcases List.mem_cons.mp ha with rfl | ha
              · exact keyLe_trans ((betterThan_false_iff _ _).mp hbf) hcur0
              · exact hall a ha hau
      · have hPl : alookup uid (pickStep acc a0) = alookup uid acc := by
          unfold pickStep
          rw [if_neg hid]
          cases hlk : alookup a0.studentId acc with
          | none =>
            rw [alookup_append]
            cases hacc2 : alookup uid acc <;> simp [alookup, huq]
          | some cur0 =>
            by_cases hbt : betterThan a0 cur0 = true
            · simp only [hbt, if_true]
              exact alookup_aupdate_other uid a0.studentId a0 huq acc
            · have hbf : betterThan a0 cur0 = false := by simpa using hbt
              simp [hbf]
        rw [hPl] at hmem hacc
        refine ⟨?_, hacc, ?_⟩
        · rcases hmem with h1 | h1
          · exact Or.inl h1
          · exact Or.inr ⟨List.mem_cons_of_mem _ h1.1, h1.2⟩
        · intro a ha hau
          rcases List.mem_cons.mp ha with rfl | ha
          · exact absurd hau huq
          · exact hall a ha hau

/-- Student attempt scoring 999 of 1000 in 100 seconds: exact fraction 99.9%,
integer percentage 100. -/
def nearMissAttempt : RankAttempt :=
  { studentId := "s", score := some 999, maxScore := some 1000, timeTakenSec := some 100 }

/-- Same student's attempt scoring 10 of 10 in 200 seconds: exact fraction
100%, integer percentage 100. -/
def perfectAttempt : RankAttempt :=
  { studentId := "s", score := some 10, maxScore := some 10, timeTakenSec := some 200 }

/-- Both example attempts land in the 100-percent bucket after rounding. -/
lemma example_pct_bucket :
    pctOf nearMissAttempt = 100 ∧ pctOf perfectAttempt = 100 := by
  constructor <;> norm_num [pctOf, pct, jsRound, rScore, rMax, nearMissAttempt, perfectAttempt]

/-- Counterexample to C6 as stated: among one student's attempts A (999/1000,
100 s) and B (10/10, 200 s), B has the strictly higher percentage score
score/maxScore, yet the aggregation selects A — the code compares the rounded,
clamped integer percentage (both 100 here) and then falls to raw score, which A
wins. -/
theorem rankings_exact_percentage_counterexample :
    pickBestAttemptsPerStudent [nearMissAttempt, perfectAttempt] = [("s", nearMissAttempt)] ∧
    rScore nearMissAttempt / rMax nearMissAttempt <
      rScore perfectAttempt / rMax perfectAttempt ∧
    pctOf nearMissAttempt = pctOf perfectAttempt := by
  obtain ⟨hA, hB⟩ := example_pct_bucket
  refine ⟨?_, by norm_num [rScore, rMax, nearMissAttempt, perfectAttempt], by rw [hA, hB]⟩
  have hbt : betterThan perfectAttempt nearMissAttempt = false := by
    unfold betterThan
    rw [hA, hB]
    norm_num [rScore, nearMissAttempt, perfectAttempt]
  have hsidA : nearMissAttempt.studentId = "s" := rfl
  have hsidB : perfectAttempt.studentId = "s" := rfl
  simp [pickBestAttemptsPerStudent, pickStep, alookup, hsidA, hsidB, hbt]

/-- C6 (amended): the aggregation selects, per student, an attempt that is
maximal in the order it actually uses — rounded-and-clamped integer percentage
(`Math.round(score/maxScore*100)`, clamped to [0,100], 0 for non-positive
maxScore) descending, then raw score descending, then time taken ascending —
so no attempt of that student beats the selected one under that comparison,
and in particular none has a strictly higher integer percentage; the ranking
comparator orders rows by exactly the same tuple. -/
theorem pickBest_selects_max_by_rounded_pct :
    (∀ (attempts : List RankAttempt) (uid : String) (sel : RankAttempt),
      uid ≠ "" →
      alookup uid (pickBestAttemptsPerStudent attempts) = some sel →
      sel ∈ attempts ∧ sel.studentId = uid ∧
      ∀ a ∈ attempts, a.studentId = uid →
        betterThan a sel = false ∧ pctOf a ≤ pctOf sel) ∧
    (∀ a b : ℤ × ℚ × ℚ,
      (rankCmp a b < 0 ↔
        b.1 < a.1 ∨ (b.1 = a.1 ∧ (b.2.1 < a.2.1 ∨ (b.2.1 = a.2.1 ∧ a.2.2 < b.2.2)))) ∧
      (rankCmp a b = 0 ↔ b.1 = a.1 ∧ b.2.1 = a.2.1 ∧ a.2.2 = b.2.2)) := by
  constructor
  · intro attempts uid sel huid h
    obtain ⟨hmem, -, hall⟩ := pickBest_fold_inv attempts [] uid sel huid h
    rcases hmem with h1 | h1
    · cases h1
    · refine ⟨h1.1, h1.2, ?_⟩
      intro a ha hau
      have hk := hall a ha hau
      refine ⟨(betterThan_false_iff _ _).mpr hk, ?_⟩
      rcases hk with hlt | ⟨heq, -⟩
      · exact le_of_lt hlt
      · exact le_of_eq heq
  · intro a b
    obtain ⟨p1, s1, t1⟩ := a
    obtain ⟨p2, s2, t2⟩ := b
    unfold rankCmp
    by_cases hp : p2 = p1
    · subst hp
      rw [if_neg (by simp)]
      by_cases hs : s2 = s1
      · subst hs
        rw [if_neg (by simp)]
        constructor
        · rw [sub_neg]
          constructor
          · intro h
            exact Or.inr ⟨rfl, Or.inr ⟨rfl, h⟩⟩
          · rintro (h | ⟨-, h | ⟨-, h⟩⟩)
            · exact absurd h (lt_irrefl _)
            · exact absurd h (lt_irrefl _)
            · exact h
        · rw [sub_eq_zero]
          constructor
          · intro h
            exact ⟨rfl, rfl, h⟩
          · rintro ⟨-, -, h⟩
            exact h
      · rw [if_pos hs]
        constructor
        · rw [sub_neg]
          constructor
          · intro h
            exact Or.inr ⟨rfl, Or.inl h⟩
          · rintro (h | ⟨-, h | ⟨he, -⟩⟩)
            · exact absurd h (lt_irrefl _)
            · exact h
            · exact absurd he hs
        · rw [sub_eq_zero]
          constructor
          · intro h
            exact absurd h hs
          · rintro ⟨-, he, -⟩
            exact absurd he hs
    · rw [if_pos hp]
      constructor
      · constructor
        · intro h
          have h2 : (p2 : ℚ) < (p1 : ℚ) := by linarith [sub_neg.mp h]
          exact Or.inl (by exact_mod_cast h2)
        · rintro (h | ⟨he, -⟩)
          · rw [sub_neg]
            exact_mod_cast h
          · exact absurd he hp
      · constructor
        · intro h
          have h2 : (p2 : ℚ) = (p1 : ℚ) := sub_eq_zero.mp h
          exact absurd (by exact_mod_cast h2) hp
        · rintro ⟨he, -⟩
          exact absurd he hp

/-- Witness for the amended C6 on the two concrete attempts: the selected
attempt is a member, and the perfect-fraction attempt does not beat it under
the rounded-percentage comparison. -/
theorem pickBest_selects_max_by_rounded_pct_witness :
    nearMissAttempt ∈ [nearMissAttempt, perfectAttempt] ∧
    betterThan perfectAttempt nearMissAttempt = false ∧
    pctOf perfectAttempt ≤ pctOf nearMissAttempt := by
  obtain ⟨hA, hB⟩ := example_pct_bucket
  have hbt : betterThan perfectAttempt nearMissAttempt = false := by
    unfold betterThan
    rw [hA, hB]
    norm_num [rScore, nearMissAttempt, perfectAttempt]
  have hlook : alookup "s" (pickBestAttemptsPerStudent [nearMissAttempt, perfectAttempt]) =
      some nearMissAttempt := by
    have hsidA : nearMissAttempt.studentId = "s" := rfl
    have hsidB : perfectAttempt.studentId = "s" := rfl
    simp [pickBestAttemptsPerStudent, pickStep, alookup, hsidA, hsidB, hbt]
  have h := (pickBest_selects_max_by_rounded_pct.1 [nearMissAttempt, perfectAttempt] "s"
    nearMissAttempt (by decide) hlook)
  exact ⟨h.1, (h.2.2 perfectAttempt (by simp) rfl).1, (h.2.2 perfectAttempt (by simp) rfl).2⟩

end UnivLive
